import Mathlib

/-!
# Verification of `create-stern-config` (`src/cli.ts`)

A shallow embedding of the CLI scaffolding tool in `src/cli.ts`.

The working directory and the bundled template directory are modelled as maps
from filename to optional file content.  Platform primitives that live outside
the repository (`JSON.parse`, `JSON.stringify`, the `bun --version` probe, the
install subprocess, the interactive prompts) are parameters of the embedded
functions: a boolean for each probe/subprocess outcome, abstract
parse/stringify functions for the JSON codec, and an `Answers` record for the
operator's prompt responses.

JSON documents are modelled by the inductive `Json`; JavaScript objects are
association lists in insertion order, with property lookup (`jsLookup`),
property assignment (`jsSet`, replacing in place or appending) and object
spread (`jsSpread`, existing keys keep their position, values from the spread
source win, fresh keys are appended) mirroring JavaScript semantics.
-/

set_option maxHeartbeats 1000000

namespace CreateSternConfig

/-- The working directory's files: filename to content, `none` when the file
does not exist (`fs.existsSync` returns false). -/
abbrev FS := String → Option String

/-- The bundled template resources, keyed by template filename (the source
resolves them under `__dirname/../templates/`).  `none` models a missing or
unreadable bundled resource, on which `fs.readFileSync` throws. -/
abbrev Tpl := String → Option String

/-- The state after `fs.writeFileSync(filename, content)`. -/
def setFile (fs : FS) (filename content : String) : FS :=
  fun s => if s = filename then some content else fs s

/-- The closed set of package-manager tags (source: `type PackageManager`). -/
inductive PackageManager where
  | bun
  | pnpm
  | yarn
  | npm
deriving DecidableEq

/-- `detectPackageManager` from the source (cli.ts lines 44-56): ordered
lockfile existence checks against the working directory, then the
`bun --version` probe (the boolean `probe` is true exactly when `execSync`
succeeds), defaulting to `npm`. -/
def detectPackageManager (fs : FS) (probe : Bool) : PackageManager :=
  if (fs "bun.lockb").isSome then .bun
  else if (fs "pnpm-lock.yaml").isSome then .pnpm
  else if (fs "yarn.lock").isSome then .yarn
  else if (fs "package-lock.json").isSome then .npm
  else if probe then .bun
  else .npm

/-- `DEPENDENCIES` from the source (cli.ts lines 18-29): the fixed
dev-dependency tokens, already in `name@range` form. -/
def DEPENDENCIES : List String :=
  [ "@eslint/js@^9.36.0",
    "@ianvs/prettier-plugin-sort-imports@^4.5.1",
    "eslint@^9.0.0",
    "eslint-config-prettier@^10.1.5",
    "eslint-plugin-import@^2.32.0",
    "eslint-plugin-jsdoc@^60.7.1",
    "eslint-plugin-n@^17.23.1",
    "globals@^15.0.0",
    "prettier@^3.0.0",
    "typescript-eslint@^8.45.0" ]

/-- `getInstallCommand` from the source (cli.ts lines 58-70).  The source's
`default` case is reachable only by `npm`, its one remaining variant. -/
def getInstallCommand (pm : PackageManager) : String :=
  let deps := String.intercalate " " DEPENDENCIES
  match pm with
  | .bun => "bun add -d " ++ deps
  | .pnpm => "pnpm add -D " ++ deps
  | .yarn => "yarn add -D " ++ deps
  | .npm => "npm install --save-dev " ++ deps

/-- JSON values, as produced by parsing the manifest file. -/
inductive Json where
  | null
  | bool (b : Bool)
  | num (n : Int)
  | str (s : String)
  | arr (elems : List Json)
  | obj (entries : List (String × Json))

/-- JavaScript property lookup on an object in insertion order: the first
entry with the given key (objects built by `JSON.parse` have distinct keys). -/
def jsLookup {α : Type} (o : List (String × α)) (k : String) : Option α :=
  match o with
  | [] => none
  | e :: rest => if e.1 = k then some e.2 else jsLookup rest k

/-- JavaScript object spread of `upd` into `old`: keys already in `old` keep
their position but take the value from `upd` when `upd` also has them; keys
only in `upd` are appended in `upd` order. -/
def jsSpread {α : Type} (old upd : List (String × α)) : List (String × α) :=
  old.map (fun e => (e.1, (jsLookup upd e.1).getD e.2)) ++
    upd.filter (fun e => (jsLookup old e.1).isNone)

/-- JavaScript property assignment `o.k = v`: replace in place when the key
exists, append otherwise. -/
def jsSet {α : Type} (o : List (String × α)) (k : String) (v : α) :
    List (String × α) :=
  if (jsLookup o k).isSome then
    o.map (fun e => if e.1 = k then (k, v) else e)
  else o ++ [(k, v)]

/-- The entries of an optional JSON value viewed as a spread source.  An
absent (`undefined`) or `null` or non-object value contributes no entries;
the manifest interface (`PackageJson` in the source) types `scripts` and
`engines` as string records, so within that typed domain the value is always
an object when present. -/
def asObj : Option Json → List (String × Json)
  | some (.obj o) => o
  | _ => []

/-- `SCRIPTS` from the source (cli.ts lines 31-36). -/
def SCRIPTS : List (String × Json) :=
  [ ("lint", .str "eslint ."),
    ("lint:fix", .str "eslint . --fix"),
    ("format", .str "prettier --write ."),
    ("format:check", .str "prettier --check .") ]

/-- `ENGINES` from the source (cli.ts lines 38-40). -/
def ENGINES : List (String × Json) :=
  [ ("node", .str ">=23.11.0") ]

/-- The in-memory mutation of the parsed manifest performed by
`updatePackageJson` (cli.ts lines 98-110): when `addScripts`, assign
`packageJson.scripts = ` spread of the old scripts then `SCRIPTS`; when
`addEngines`, likewise with `ENGINES`. -/
def applyManifestUpdates (addScripts addEngines : Bool)
    (pj : List (String × Json)) : List (String × Json) :=
  let pj1 :=
    if addScripts then
      jsSet pj "scripts" (.obj (jsSpread (asObj (jsLookup pj "scripts")) SCRIPTS))
    else pj
  if addEngines then
    jsSet pj1 "engines" (.obj (jsSpread (asObj (jsLookup pj1 "engines")) ENGINES))
  else pj1

/-- `updatePackageJson` from the source (cli.ts lines 86-116), over the
embedded filesystem.  The platform JSON codec is abstract: `parseJson`
returns the parsed top-level object, `none` when `JSON.parse` throws;
`stringifyJson` stands for `JSON.stringify(pj, null, 2)`.  Result `.error ()`
models the thrown parse error; `.ok` returns the filesystem after the run
(unchanged when the manifest is absent: the source warns and returns). -/
def updatePackageJson (parseJson : String → Option (List (String × Json)))
    (stringifyJson : List (String × Json) → String)
    (addScripts addEngines : Bool) (fs : FS) : Except Unit FS :=
  match fs "package.json" with
  | none => .ok fs
  | some content =>
    match parseJson content with
    | none => .error ()
    | some pj =>
      .ok (setFile fs "package.json"
        (stringifyJson (applyManifestUpdates addScripts addEngines pj) ++ "\n"))

/-- `copyTemplate` from the source (cli.ts lines 72-84): if the target exists
in the working directory, warn and return false; otherwise read the bundled
template (`.error ()` models the `readFileSync` throw when it is missing) and
write its content verbatim to the target, returning true. -/
def copyTemplate (tpl : Tpl) (fs : FS) (filename : String) :
    Except Unit (Bool × FS) :=
  if (fs filename).isSome then .ok (false, fs)
  else
    match tpl filename with
    | none => .error ()
    | some content => .ok (true, setFile fs filename content)

/-- One `copyTemplate` call as seen by `main`: a throw propagates, carrying
the filesystem as already mutated (the throw happens before any write, so it
is the input state). -/
def copyStep (tpl : Tpl) (fs : FS) (filename : String) : Except FS FS :=
  match copyTemplate tpl fs filename with
  | .ok r => .ok r.2
  | .error _ => .error fs

/-- The operator's multiselect choice of configuration files. -/
structure Sel where
  eslint : Bool
  prettier : Bool
  prettierignore : Bool

/-- The file-writing section of `main` (cli.ts lines 174-188): one
`copyTemplate` call per selected file, in source order, with no try/catch, so
the first throw aborts the remaining calls (`.error` carries the files
written so far). -/
def writeFilesStep (sel : Sel) (tpl : Tpl) (fs : FS) : Except FS FS := do
  let fs1 ← if sel.eslint then copyStep tpl fs "eslint.config.js" else .ok fs
  let fs2 ← if sel.prettier then copyStep tpl fs1 "prettier.config.js" else .ok fs1
  if sel.prettierignore then copyStep tpl fs2 ".prettierignore" else .ok fs2

/-- The manifest-updating section of `main` (cli.ts lines 190-199): entered
only when a script or engines update was confirmed; `updatePackageJson` runs
inside try/catch, so a thrown error is reported and the run continues with
the filesystem unchanged. -/
def updateManifestStep (parseJson : String → Option (List (String × Json)))
    (stringifyJson : List (String × Json) → String)
    (addScripts addEngines : Bool) (fs : FS) : FS :=
  if addScripts || addEngines then
    match updatePackageJson parseJson stringifyJson addScripts addEngines fs with
    | .ok fs1 => fs1
    | .error _ => fs
  else fs

/-- The operator's responses to the four prompts, in prompt order; `none`
models cancellation at that prompt. -/
structure Answers where
  files : Option Sel
  updateScripts : Option Bool
  updateEngines : Option Bool
  installDeps : Option Bool

/-- The platform collaborators of one run: the bundled templates, the JSON
codec, the outcome of the `bun --version` probe, and the outcome of the
dependency-install subprocess. -/
structure Env where
  tpl : Tpl
  parseJson : String → Option (List (String × Json))
  stringifyJson : List (String × Json) → String
  bunProbeOk : Bool
  installOk : Bool

/-- The observable outcome of one run: the final working directory, the
process exit code, the manual install command printed as a remediation hint
on install failure, and whether the generic top-level error message was
printed by `main().catch`. -/
structure RunResult where
  fs : FS
  exitCode : Nat
  manualHint : Option String
  genericError : Bool

/-- `main` from the source (cli.ts lines 118-232), including the top-level
`main().catch` handler: detect the package manager, walk the four prompts
(cancellation exits 0), write the selected files (an uncaught copy error
reaches `main().catch`, which prints the generic message and exits 1), update
the manifest inside try/catch, then install when confirmed (failure prints
the manual install command and exits 1); otherwise exit 0. -/
def runMain (ans : Answers) (env : Env) (fs : FS) : RunResult :=
  let pm := detectPackageManager fs env.bunProbeOk
  match ans.files with
  | none => ⟨fs, 0, none, false⟩
  | some sel =>
    match ans.updateScripts with
    | none => ⟨fs, 0, none, false⟩
    | some us =>
      match ans.updateEngines with
      | none => ⟨fs, 0, none, false⟩
      | some ue =>
        match ans.installDeps with
        | none => ⟨fs, 0, none, false⟩
        | some inst =>
          match writeFilesStep sel env.tpl fs with
          | .error fs1 => ⟨fs1, 1, none, true⟩
          | .ok fs1 =>
            let fs2 := updateManifestStep env.parseJson env.stringifyJson us ue fs1
            if inst then
              if env.installOk then ⟨fs2, 0, none, false⟩
              else ⟨fs2, 1, some (getInstallCommand pm), false⟩
            else ⟨fs2, 0, none, false⟩

/-- The empty working directory. -/
def emptyFs : FS := fun _ => none

/-- A working directory holding only a pnpm lockfile. -/
def fsPnpm : FS := fun s => if s = "pnpm-lock.yaml" then some "lock" else none

/-- A bundled-template map with every template present. -/
def tplAll : Tpl := fun _ => some "template-content"

/-- A bundled-template map with every template missing. -/
def tplNone : Tpl := fun _ => none

/-- A bundled-template map whose eslint template is readable but whose
prettier template is missing. -/
def tplNoPrettier : Tpl :=
  fun s => if s = "prettier.config.js" then none else some "template-content"

/-- The manifest of testable property 4:
`{"name":"x","scripts":{"build":"tsc"}}`. -/
def pjExample : List (String × Json) :=
  [ ("name", .str "x"),
    ("scripts", .obj [("build", .str "tsc")]) ]

/-- A bundled-template map whose eslint template is missing but whose other
templates are readable. -/
def tplNoEslint : Tpl :=
  fun s => if s = "eslint.config.js" then none else some "template-content"

/-- A JSON codec stub that rejects every string, modelling `JSON.parse`
throwing on invalid content. -/
def parseNone : String → Option (List (String × Json)) := fun _ => none

/-- A constant serializer stub standing in for `JSON.stringify`. -/
def stringifyConst : List (String × Json) → String := fun _ => "json"

/-- A working directory whose manifest file holds invalid JSON. -/
def fsBadManifest : FS :=
  fun s => if s = "package.json" then some "not json" else none

/-! ## Lemmas on JavaScript object operations -/

theorem jsLookup_append {α : Type} (a b : List (String × α)) (k : String) :
    jsLookup (a ++ b) k = (jsLookup a k).or (jsLookup b k) := by
  induction a with
  | nil => rfl
  | cons e rest ih =>
      by_cases h : e.1 = k
      · simp [jsLookup, h]
      · simp [jsLookup, h, ih]

theorem jsLookup_map_update {α : Type} (old upd : List (String × α)) (k : String) :
    jsLookup (old.map (fun e => (e.1, (jsLookup upd e.1).getD e.2))) k =
      (jsLookup old k).map (fun v => (jsLookup upd k).getD v) := by
  induction old with
  | nil => rfl
  | cons e rest ih =>
      by_cases h : e.1 = k
      · subst h; simp [jsLookup]
      · simp [jsLookup, h, ih]

theorem jsLookup_filter_fresh {α : Type} (old upd : List (String × α)) (k : String) :
    jsLookup (upd.filter (fun e => (jsLookup old e.1).isNone)) k =
      if (jsLookup old k).isNone = true then jsLookup upd k else none := by
  induction upd with
  | nil => simp [jsLookup]
  | cons e rest ih =>
      by_cases hk : e.1 = k
      · subst hk
        by_cases hc : (jsLookup old e.1).isNone = true
        · simp [List.filter_cons, hc, jsLookup, ih]
        · simp [List.filter_cons, hc, jsLookup, ih]
      · by_cases hc : (jsLookup old e.1).isNone = true
        · simp [List.filter_cons, hc, jsLookup, hk, ih]
        · simp [List.filter_cons, hc, jsLookup, hk, ih]

theorem jsLookup_jsSpread {α : Type} (old upd : List (String × α)) (k : String) :
    jsLookup (jsSpread old upd) k = (jsLookup upd k).or (jsLookup old k) := by
  rw [jsSpread, jsLookup_append, jsLookup_map_update, jsLookup_filter_fresh]
  cases ho : jsLookup old k <;> cases hu : jsLookup upd k <;> simp

theorem jsLookup_map_set_self {α : Type} (o : List (String × α)) (k : String)
    (v : α) (h : (jsLookup o k).isSome = true) :
    jsLookup (o.map (fun e => if e.1 = k then (k, v) else e)) k = some v := by
  induction o with
  | nil => simp [jsLookup] at h
  | cons e rest ih =>
      by_cases hk : e.1 = k
      · simp [jsLookup, hk]
      · have h2 : (jsLookup rest k).isSome = true := by
          simpa [jsLookup, hk] using h
        simp [jsLookup, hk, ih h2]

theorem jsLookup_map_set_other {α : Type} (o : List (String × α)) (k k2 : String)
    (v : α) (hne : k2 ≠ k) :
    jsLookup (o.map (fun e => if e.1 = k then (k, v) else e)) k2 = jsLookup o k2 := by
  have hkk : ¬k = k2 := fun hc => hne hc.symm
  induction o with
  | nil => rfl
  | cons e rest ih =>
      by_cases hk : e.1 = k
      · have he : ¬e.1 = k2 := by rw [hk]; exact hkk
        simp [jsLookup, hk, hkk, he, ih]
      · by_cases h2 : e.1 = k2
        · simp [jsLookup, hk, h2, hkk, hne]
        · simp [jsLookup, hk, h2, ih]

theorem jsLookup_jsSet_self {α : Type} (o : List (String × α)) (k : String) (v : α) :
    jsLookup (jsSet o k v) k = some v := by
  rw [jsSet]
  by_cases h : (jsLookup o k).isSome = true
  · simp [h, jsLookup_map_set_self o k v h]
  · have hn : jsLookup o k = none := by
      cases hm : jsLookup o k
      · rfl
      · rw [hm] at h; simp at h
    simp [h, jsLookup_append, hn, jsLookup]

theorem jsLookup_jsSet_other {α : Type} (o : List (String × α)) (k k2 : String)
    (v : α) (hne : k2 ≠ k) :
    jsLookup (jsSet o k v) k2 = jsLookup o k2 := by
  have hkk : ¬k = k2 := fun hc => hne hc.symm
  rw [jsSet]
  by_cases h : (jsLookup o k).isSome = true
  · simp [h, jsLookup_map_set_other o k k2 v hne]
  · have hone : jsLookup [(k, v)] k2 = none := by simp [jsLookup, hkk]
    simp only [h, if_false, Bool.false_eq_true, ite_false, jsLookup_append, hone]
    cases jsLookup o k2 <;> rfl

/-! ## Claim theorems -/

/-- C1: `detectPackageManager` follows the ordered first-match-wins chain —
`bun` on a bun lockfile, else `pnpm` on pnpm-lock.yaml, else `yarn` on
yarn.lock, else `npm` on package-lock.json, else `bun` when the version probe
succeeds, else `npm` — and it is total, always returning one of the four
tags. -/
theorem detectPackageManager_chain (fs : FS) (probe : Bool) :
    ((fs "bun.lockb").isSome = true → detectPackageManager fs probe = .bun)
    ∧ ((fs "bun.lockb").isSome = false → (fs "pnpm-lock.yaml").isSome = true →
        detectPackageManager fs probe = .pnpm)
    ∧ ((fs "bun.lockb").isSome = false → (fs "pnpm-lock.yaml").isSome = false →
        (fs "yarn.lock").isSome = true → detectPackageManager fs probe = .yarn)
    ∧ ((fs "bun.lockb").isSome = false → (fs "pnpm-lock.yaml").isSome = false →
        (fs "yarn.lock").isSome = false → (fs "package-lock.json").isSome = true →
        detectPackageManager fs probe = .npm)
    ∧ ((fs "bun.lockb").isSome = false → (fs "pnpm-lock.yaml").isSome = false →
        (fs "yarn.lock").isSome = false → (fs "package-lock.json").isSome = false →
        probe = true → detectPackageManager fs probe = .bun)
    ∧ ((fs "bun.lockb").isSome = false → (fs "pnpm-lock.yaml").isSome = false →
        (fs "yarn.lock").isSome = false → (fs "package-lock.json").isSome = false →
        probe = false → detectPackageManager fs probe = .npm)
    ∧ (detectPackageManager fs probe = .bun ∨ detectPackageManager fs probe = .pnpm
        ∨ detectPackageManager fs probe = .yarn ∨ detectPackageManager fs probe = .npm) := by
  refine ⟨?_, ?_, ?_, ?_, ?_, ?_, ?_⟩
  · intro h1; simp [detectPackageManager, h1]
  · intro h1 h2; simp [detectPackageManager, h1, h2]
  · intro h1 h2 h3; simp [detectPackageManager, h1, h2, h3]
  · intro h1 h2 h3 h4; simp [detectPackageManager, h1, h2, h3, h4]
  · intro h1 h2 h3 h4 h5; simp [detectPackageManager, h1, h2, h3, h4, h5]
  · intro h1 h2 h3 h4 h5; simp [detectPackageManager, h1, h2, h3, h4, h5]
  · cases hd : detectPackageManager fs probe
    · exact Or.inl rfl
    · exact Or.inr (Or.inl rfl)
    · exact Or.inr (Or.inr (Or.inl rfl))
    · exact Or.inr (Or.inr (Or.inr rfl))

/-- Witness for C1: a directory holding only a pnpm lockfile detects `pnpm`
through the chain's second link. -/
theorem detectPackageManager_chain_witness :
    detectPackageManager fsPnpm false = PackageManager.pnpm :=
  (detectPackageManager_chain fsPnpm false).2.1 (by decide) (by decide)

/-- C2: `getInstallCommand` is the tag-specific add-dev prefix followed by the
fixed dependency tokens joined by single spaces in declaration order; the
tokens are pairwise distinct (each appears exactly once) and each has the
form name@range; the function is pure and total, so equal tags give
identical strings. -/
theorem getInstallCommand_spec :
    (getInstallCommand .bun = "bun add -d " ++ String.intercalate " " DEPENDENCIES)
    ∧ (getInstallCommand .pnpm = "pnpm add -D " ++ String.intercalate " " DEPENDENCIES)
    ∧ (getInstallCommand .yarn = "yarn add -D " ++ String.intercalate " " DEPENDENCIES)
    ∧ (getInstallCommand .npm =
        "npm install --save-dev " ++ String.intercalate " " DEPENDENCIES)
    ∧ DEPENDENCIES.Nodup
    ∧ (∀ d ∈ DEPENDENCIES, ∃ nm rng, rng ≠ "" ∧ d = nm ++ "@" ++ rng)
    ∧ (∀ pm1 pm2 : PackageManager, pm1 = pm2 →
        getInstallCommand pm1 = getInstallCommand pm2) := by
  refine ⟨rfl, rfl, rfl, rfl, by decide, ?_, ?_⟩
  · intro d hd
    simp only [DEPENDENCIES, List.mem_cons, List.not_mem_nil, or_false] at hd
    rcases hd with rfl | rfl | rfl | rfl | rfl | rfl | rfl | rfl | rfl | rfl
    · exact ⟨"@eslint/js", "^9.36.0", by decide, by decide⟩
    · exact ⟨"@ianvs/prettier-plugin-sort-imports", "^4.5.1", by decide, by decide⟩
    · exact ⟨"eslint", "^9.0.0", by decide, by decide⟩
    · exact ⟨"eslint-config-prettier", "^10.1.5", by decide, by decide⟩
    · exact ⟨"eslint-plugin-import", "^2.32.0", by decide, by decide⟩
    · exact ⟨"eslint-plugin-jsdoc", "^60.7.1", by decide, by decide⟩
    · exact ⟨"eslint-plugin-n", "^17.23.1", by decide, by decide⟩
    · exact ⟨"globals", "^15.0.0", by decide, by decide⟩
    · exact ⟨"prettier", "^3.0.0", by decide, by decide⟩
    · exact ⟨"typescript-eslint", "^8.45.0", by decide, by decide⟩
  · intro pm1 pm2 h
    exact congrArg getInstallCommand h

/-- Witness for C2: the purity clause applied at the `npm` tag. -/
theorem getInstallCommand_spec_witness :
    getInstallCommand .npm = getInstallCommand .npm :=
  getInstallCommand_spec.2.2.2.2.2.2 .npm .npm rfl

/-- C3: when the target file is absent, `copyTemplate` writes the bundled
template content byte-identically, returns true and leaves every other file
unchanged; when the target exists, it returns false and leaves the working
directory untouched. -/
theorem copyTemplate_spec (tpl : Tpl) (fs : FS) (filename content : String) :
    (fs filename = none → tpl filename = some content →
      copyTemplate tpl fs filename = .ok (true, setFile fs filename content)
      ∧ setFile fs filename content filename = some content
      ∧ (∀ k, k ≠ filename → setFile fs filename content k = fs k))
    ∧ (∀ c, fs filename = some c → copyTemplate tpl fs filename = .ok (false, fs)) := by
  constructor
  · intro h1 h2
    refine ⟨?_, ?_, ?_⟩
    · simp [copyTemplate, h1, h2]
    · simp [setFile]
    · intro k hk; simp [setFile, hk]
  · intro c hc
    simp [copyTemplate, hc]

/-- Witness for C3: copying the eslint template into an empty directory
creates the target with the template's content. -/
theorem copyTemplate_spec_witness :
    copyTemplate tplAll emptyFs "eslint.config.js" =
      Except.ok (true, setFile emptyFs "eslint.config.js" "template-content") :=
  ((copyTemplate_spec tplAll emptyFs "eslint.config.js" "template-content").1
    rfl rfl).1

/-- C10: when the target already exists, `copyTemplate` returns false without
consulting the bundled template, so a missing or unreadable template never
causes an error there: the result is identical for every template map. -/
theorem copyTemplate_existing_ignores_template (tpl tpl2 : Tpl) (fs : FS)
    (filename : String) (h : (fs filename).isSome = true) :
    copyTemplate tpl fs filename = .ok (false, fs)
    ∧ copyTemplate tpl fs filename = copyTemplate tpl2 fs filename := by
  constructor
  · simp [copyTemplate, h]
  · simp [copyTemplate, h]

/-- Witness for C10: with every bundled template missing, an existing target
still yields a clean false result. -/
theorem copyTemplate_existing_ignores_template_witness :
    copyTemplate tplNone (setFile emptyFs ".prettierignore" "x") ".prettierignore"
      = Except.ok (false, setFile emptyFs ".prettierignore" "x") :=
  (copyTemplate_existing_ignores_template tplNone tplAll
    (setFile emptyFs ".prettierignore" "x") ".prettierignore" (by decide)).1

theorem applyManifestUpdates_other (a e : Bool) (pj : List (String × Json))
    (k : String) (hk1 : k ≠ "scripts") (hk2 : k ≠ "engines") :
    jsLookup (applyManifestUpdates a e pj) k = jsLookup pj k := by
  rw [applyManifestUpdates]
  cases a <;> cases e <;> simp only [Bool.false_eq_true, if_false, if_true]
  · rw [jsLookup_jsSet_other _ _ _ _ hk2]
  · rw [jsLookup_jsSet_other _ _ _ _ hk1]
  · rw [jsLookup_jsSet_other _ _ _ _ hk2, jsLookup_jsSet_other _ _ _ _ hk1]

theorem applyManifestUpdates_scripts (e : Bool) (pj : List (String × Json)) :
    jsLookup (applyManifestUpdates true e pj) "scripts" =
      some (.obj (jsSpread (asObj (jsLookup pj "scripts")) SCRIPTS)) := by
  have hne : ("scripts" : String) ≠ "engines" := by decide
  rw [applyManifestUpdates]
  cases e <;> simp only [Bool.false_eq_true, if_false, if_true]
  · exact jsLookup_jsSet_self _ _ _
  · rw [jsLookup_jsSet_other _ _ _ _ hne]
    exact jsLookup_jsSet_self _ _ _

theorem applyManifestUpdates_engines (a : Bool) (pj : List (String × Json)) :
    jsLookup (applyManifestUpdates a true pj) "engines" =
      some (.obj (jsSpread (asObj (jsLookup pj "engines")) ENGINES)) := by
  have hne : ("engines" : String) ≠ "scripts" := by decide
  rw [applyManifestUpdates]
  cases a <;> simp only [Bool.false_eq_true, if_false, if_true]
  · exact jsLookup_jsSet_self _ _ _
  · rw [jsLookup_jsSet_self, jsLookup_jsSet_other _ _ _ _ hne]

/-- C4: the manifest mutation of `updatePackageJson` never drops or
overwrites a top-level key other than scripts and engines, leaves scripts and
engines alone when their flag is off, and on the flagged maps merges rather
than replaces: the fixed new entries win on same-named conflicts and every
other existing entry is preserved. -/
theorem updatePackageJson_frame_merge (a e : Bool) (pj : List (String × Json)) :
    (∀ k, k ≠ "scripts" → k ≠ "engines" →
      jsLookup (applyManifestUpdates a e pj) k = jsLookup pj k)
    ∧ (a = false → jsLookup (applyManifestUpdates a e pj) "scripts" =
        jsLookup pj "scripts")
    ∧ (e = false → jsLookup (applyManifestUpdates a e pj) "engines" =
        jsLookup pj "engines")
    ∧ (a = true → ∀ so, jsLookup pj "scripts" = some (.obj so) →
        jsLookup (applyManifestUpdates a e pj) "scripts"
            = some (.obj (jsSpread so SCRIPTS))
          ∧ (∀ k v, jsLookup SCRIPTS k = some v →
              jsLookup (jsSpread so SCRIPTS) k = some v)
          ∧ (∀ k, jsLookup SCRIPTS k = none →
              jsLookup (jsSpread so SCRIPTS) k = jsLookup so k))
    ∧ (e = true → ∀ eo, jsLookup pj "engines" = some (.obj eo) →
        jsLookup (applyManifestUpdates a e pj) "engines"
            = some (.obj (jsSpread eo ENGINES))
          ∧ (∀ k v, jsLookup ENGINES k = some v →
              jsLookup (jsSpread eo ENGINES) k = some v)
          ∧ (∀ k, jsLookup ENGINES k = none →
              jsLookup (jsSpread eo ENGINES) k = jsLookup eo k)) := by
  have hse : ("scripts" : String) ≠ "engines" := by decide
  have hes : ("engines" : String) ≠ "scripts" := by decide
  refine ⟨fun k hk1 hk2 => applyManifestUpdates_other a e pj k hk1 hk2, ?_, ?_, ?_, ?_⟩
  · rintro rfl
    rw [applyManifestUpdates]
    cases e <;> simp only [Bool.false_eq_true, if_false, if_true]
    rw [jsLookup_jsSet_other _ _ _ _ hse]
  · rintro rfl
    rw [applyManifestUpdates]
    cases a <;> simp only [Bool.false_eq_true, if_false, if_true]
    rw [jsLookup_jsSet_other _ _ _ _ hes]
  · rintro rfl so hso
    refine ⟨?_, ?_, ?_⟩
    · rw [applyManifestUpdates_scripts e pj, hso, asObj]
    · intro k v hv
      rw [jsLookup_jsSpread, hv]
      rfl
    · intro k hv
      rw [jsLookup_jsSpread, hv]
      cases jsLookup so k <;> rfl
  · rintro rfl eo heo
    refine ⟨?_, ?_, ?_⟩
    · rw [applyManifestUpdates_engines a pj, heo, asObj]
    · intro k v hv
      rw [jsLookup_jsSpread, hv]
      rfl
    · intro k hv
      rw [jsLookup_jsSpread, hv]
      cases jsLookup eo k <;> rfl

/-- Witness for C4: on the example manifest with both flags set, the `name`
key is untouched and the existing `build` script survives the merge. -/
theorem updatePackageJson_frame_merge_witness :
    jsLookup (applyManifestUpdates true true pjExample) "name" = some (Json.str "x")
    ∧ jsLookup (jsSpread [("build", Json.str "tsc")] SCRIPTS) "build"
        = some (Json.str "tsc") := by
  constructor
  · exact ((updatePackageJson_frame_merge true true pjExample).1 "name"
      (by decide) (by decide)).trans rfl
  · exact (((updatePackageJson_frame_merge true true pjExample).2.2.2.1 rfl
      [("build", Json.str "tsc")] rfl).2.2 "build" rfl).trans rfl

/-- C5: with addScripts true the fixed script map is merged into the existing
scripts mapping — created when absent, new entries overriding same-named
existing entries, all other existing entries preserved — and on the manifest
`{"name":"x","scripts":{"build":"tsc"}}` the result keeps scripts.build at
"tsc", sets scripts.lint to "eslint .", and leaves the name key unchanged. -/
theorem updatePackageJson_scripts_merge (e : Bool) :
    (∀ pj : List (String × Json), ∀ so, jsLookup pj "scripts" = some (.obj so) →
      jsLookup (applyManifestUpdates true e pj) "scripts"
          = some (.obj (jsSpread so SCRIPTS))
        ∧ (∀ k v, jsLookup SCRIPTS k = some v →
            jsLookup (jsSpread so SCRIPTS) k = some v)
        ∧ (∀ k, jsLookup SCRIPTS k = none →
            jsLookup (jsSpread so SCRIPTS) k = jsLookup so k))
    ∧ (∀ pj : List (String × Json), jsLookup pj "scripts" = none →
        jsLookup (applyManifestUpdates true e pj) "scripts"
            = some (.obj (jsSpread [] SCRIPTS))
          ∧ (∀ k, jsLookup (jsSpread ([] : List (String × Json)) SCRIPTS) k
              = jsLookup SCRIPTS k))
    ∧ jsLookup (applyManifestUpdates true e pjExample) "scripts"
        = some (.obj (jsSpread [("build", Json.str "tsc")] SCRIPTS))
    ∧ jsLookup (jsSpread [("build", Json.str "tsc")] SCRIPTS) "build"
        = some (Json.str "tsc")
    ∧ jsLookup (jsSpread [("build", Json.str "tsc")] SCRIPTS) "lint"
        = some (Json.str "eslint .")
    ∧ jsLookup (applyManifestUpdates true e pjExample) "name"
        = some (Json.str "x") := by
  refine ⟨?_, ?_, ?_, ?_, ?_, ?_⟩
  · intro pj so hso
    refine ⟨?_, ?_, ?_⟩
    · rw [applyManifestUpdates_scripts e pj, hso, asObj]
    · intro k v hv
      rw [jsLookup_jsSpread, hv]
      rfl
    · intro k hv
      rw [jsLookup_jsSpread, hv]
      cases jsLookup so k <;> rfl
  · intro pj hso
    constructor
    · rw [applyManifestUpdates_scripts e pj, hso]
      rfl
    · intro k
      rw [jsLookup_jsSpread]
      cases jsLookup SCRIPTS k <;> rfl
  · rw [applyManifestUpdates_scripts e pjExample]
    rfl
  · rfl
  · rfl
  · rw [applyManifestUpdates_other true e pjExample "name" (by decide) (by decide)]
    rfl

/-- Witness for C5: the general merge clause applied to the example manifest
yields the merged scripts object. -/
theorem updatePackageJson_scripts_merge_witness :
    jsLookup (applyManifestUpdates true false pjExample) "scripts"
      = some (Json.obj (jsSpread [("build", Json.str "tsc")] SCRIPTS)) :=
  ((updatePackageJson_scripts_merge false).1 pjExample
    [("build", Json.str "tsc")] rfl).1

/-- C6: on a manifest holding invalid JSON, `updatePackageJson` raises the
parse error before performing any write, the try/catch in `main` absorbs it
leaving the working directory exactly as it was, and the run continues to the
remaining steps: with installation declined it still completes normally with
exit code 0. -/
theorem updatePackageJson_parse_error
    (parseJson : String → Option (List (String × Json)))
    (stringifyJson : List (String × Json) → String)
    (a e : Bool) (fs : FS) (content : String)
    (hc : fs "package.json" = some content)
    (hp : parseJson content = none) :
    updatePackageJson parseJson stringifyJson a e fs = .error ()
    ∧ updateManifestStep parseJson stringifyJson a e fs = fs
    ∧ (∀ (env : Env) (sel : Sel) (us ue : Bool),
        env.parseJson = parseJson →
        writeFilesStep sel env.tpl fs = .ok fs →
        runMain ⟨some sel, some us, some ue, some false⟩ env fs
          = ⟨fs, 0, none, false⟩) := by
  have h1 : updatePackageJson parseJson stringifyJson a e fs = .error () := by
    simp only [updatePackageJson, hc, hp]
  refine ⟨h1, ?_, ?_⟩
  · rw [updateManifestStep]
    by_cases hae : (a || e) = true
    · simp [hae, h1]
    · simp [hae]
  · intro env sel us ue hpe hw
    have hu : updatePackageJson env.parseJson env.stringifyJson us ue fs
        = .error () := by
      simp only [updatePackageJson, hc, hpe, hp]
    have hm : updateManifestStep env.parseJson env.stringifyJson us ue fs = fs := by
      rw [updateManifestStep]
      by_cases hae : (us || ue) = true
      · simp [hae, hu]
      · simp [hae]
    simp [runMain, hw, hm]

/-- Witness for C6: the invalid-manifest directory with the rejecting codec
raises the parse error and the orchestrator step leaves the directory
unchanged. -/
theorem updatePackageJson_parse_error_witness :
    updatePackageJson parseNone stringifyConst true true fsBadManifest
        = Except.error ()
    ∧ updateManifestStep parseNone stringifyConst true true fsBadManifest
        = fsBadManifest := by
  have h := updatePackageJson_parse_error parseNone stringifyConst true true
    fsBadManifest "not json" (by decide) rfl
  exact ⟨h.1, h.2.1⟩

/-- C7: when no manifest file exists, `updatePackageJson` performs zero
writes and raises no error for every flag combination: it returns normally
with the working directory unchanged. -/
theorem updatePackageJson_no_manifest
    (parseJson : String → Option (List (String × Json)))
    (stringifyJson : List (String × Json) → String)
    (a e : Bool) (fs : FS) (h : fs "package.json" = none) :
    updatePackageJson parseJson stringifyJson a e fs = .ok fs := by
  rw [updatePackageJson, h]

/-- Witness for C7: the empty working directory is returned unchanged. -/
theorem updatePackageJson_no_manifest_witness :
    updatePackageJson parseNone stringifyConst true false emptyFs
      = Except.ok emptyFs :=
  updatePackageJson_no_manifest parseNone stringifyConst true false emptyFs rfl

/-- Counterexample to C8 as stated: on an empty directory with all three
files selected, the eslint template missing and the prettier template
readable, the first copy's failure is not caught and converted into a
per-file warning — `writeFilesStep` aborts with the error, the prettier copy
(which would have succeeded: its target is absent and its template readable)
is never performed, and the whole run terminates with exit code 1 and the
generic top-level error message. -/
theorem writeFiles_abort_counterexample :
    writeFilesStep ⟨true, true, true⟩ tplNoEslint emptyFs = Except.error emptyFs
    ∧ emptyFs "prettier.config.js" = none
    ∧ tplNoEslint "prettier.config.js" = some "template-content"
    ∧ runMain ⟨some ⟨true, true, true⟩, some false, some false, some false⟩
        ⟨tplNoEslint, parseNone, stringifyConst, false, true⟩ emptyFs
      = ⟨emptyFs, 1, none, true⟩ := by
  refine ⟨rfl, rfl, rfl, rfl⟩

/-- C8 amended: failure of one file copy during WriteFiles is not caught at
the orchestrator level; the thrown error propagates, aborting the remaining
copies, so the fan-out is all-or-abort from the failing file onward; copies
completed before the failure persist, and the run terminates through the
top-level handler with the generic error message and exit code 1. -/
theorem writeFiles_abort (tpl : Tpl) (fs : FS) (c : String)
    (he : tpl "eslint.config.js" = some c)
    (hef : fs "eslint.config.js" = none)
    (hp : tpl "prettier.config.js" = none)
    (hpf : fs "prettier.config.js" = none) :
    writeFilesStep ⟨true, true, true⟩ tpl fs
      = Except.error (setFile fs "eslint.config.js" c)
    ∧ (∀ (parseJson : String → Option (List (String × Json)))
        (stringifyJson : List (String × Json) → String)
        (probe iOk us ue inst : Bool),
        runMain ⟨some ⟨true, true, true⟩, some us, some ue, some inst⟩
          ⟨tpl, parseJson, stringifyJson, probe, iOk⟩ fs
        = ⟨setFile fs "eslint.config.js" c, 1, none, true⟩) := by
  have hne : ¬("prettier.config.js" : String) = "eslint.config.js" := by decide
  have h1 : copyStep tpl fs "eslint.config.js"
      = Except.ok (setFile fs "eslint.config.js" c) := by
    simp [copyStep, copyTemplate, hef, he]
  have hpf1 : setFile fs "eslint.config.js" c "prettier.config.js" = none := by
    simp [setFile, hne, hpf]
  have h2 : copyStep tpl (setFile fs "eslint.config.js" c) "prettier.config.js"
      = Except.error (setFile fs "eslint.config.js" c) := by
    simp [copyStep, copyTemplate, hpf1, hp]
  have hw : writeFilesStep ⟨true, true, true⟩ tpl fs
      = Except.error (setFile fs "eslint.config.js" c) := by
    simp [writeFilesStep, h1, h2, Bind.bind, Except.bind]
  refine ⟨hw, ?_⟩
  intro parseJson stringifyJson probe iOk us ue inst
  simp [runMain, hw]

/-- Witness for C8 amended: with the prettier template missing, the eslint
copy persists and the step aborts carrying exactly that one write. -/
theorem writeFiles_abort_witness :
    writeFilesStep ⟨true, true, true⟩ tplNoPrettier emptyFs
      = Except.error (setFile emptyFs "eslint.config.js" "template-content") :=
  (writeFiles_abort tplNoPrettier emptyFs "template-content"
    rfl rfl rfl rfl).1

/-- Counterexample to C9 as stated: a run in which installation was declined
(so no installation failure can occur) still terminates with exit code 1,
because the eslint file copy throws; installation failure is therefore not
the only step whose failure terminates the run. -/
theorem exit_code_counterexample :
    runMain ⟨some ⟨true, false, false⟩, some false, some false, some false⟩
        ⟨tplNone, parseNone, stringifyConst, false, true⟩ emptyFs
      = ⟨emptyFs, 1, none, true⟩ := by
  rfl

/-- C9 amended: the exit code is 0 on normal completion and on operator
cancellation at any of the four prompts; 1 when the dependency installation
fails after being selected, with the manual install command recorded as a
remediation hint; and 1 with the generic top-level error message for an
uncaught error, such as a failed file copy — which, besides installation
failure, also terminates the run; a manifest-update failure never does. -/
theorem exit_codes (env : Env) (fs : FS) :
    (∀ us ue inst, runMain ⟨none, us, ue, inst⟩ env fs = ⟨fs, 0, none, false⟩)
    ∧ (∀ sel ue inst, runMain ⟨some sel, none, ue, inst⟩ env fs
        = ⟨fs, 0, none, false⟩)
    ∧ (∀ sel us inst, runMain ⟨some sel, some us, none, inst⟩ env fs
        = ⟨fs, 0, none, false⟩)
    ∧ (∀ sel us ue, runMain ⟨some sel, some us, some ue, none⟩ env fs
        = ⟨fs, 0, none, false⟩)
    ∧ (∀ sel us ue fs1, writeFilesStep sel env.tpl fs = .ok fs1 →
        runMain ⟨some sel, some us, some ue, some false⟩ env fs
          = ⟨updateManifestStep env.parseJson env.stringifyJson us ue fs1,
              0, none, false⟩)
    ∧ (∀ sel us ue fs1, writeFilesStep sel env.tpl fs = .ok fs1 →
        env.installOk = true →
        runMain ⟨some sel, some us, some ue, some true⟩ env fs
          = ⟨updateManifestStep env.parseJson env.stringifyJson us ue fs1,
              0, none, false⟩)
    ∧ (∀ sel us ue fs1, writeFilesStep sel env.tpl fs = .ok fs1 →
        env.installOk = false →
        runMain ⟨some sel, some us, some ue, some true⟩ env fs
          = ⟨updateManifestStep env.parseJson env.stringifyJson us ue fs1,
              1, some (getInstallCommand (detectPackageManager fs env.bunProbeOk)),
              false⟩)
    ∧ (∀ sel us ue inst fs1, writeFilesStep sel env.tpl fs = .error fs1 →
        runMain ⟨some sel, some us, some ue, some inst⟩ env fs
          = ⟨fs1, 1, none, true⟩) := by
  refine ⟨?_, ?_, ?_, ?_, ?_, ?_, ?_, ?_⟩
  · intro us ue inst; rfl
  · intro sel ue inst; rfl
  · intro sel us inst; rfl
  · intro sel us ue; rfl
  · intro sel us ue fs1 hw; simp [runMain, hw]
  · intro sel us ue fs1 hw hok; simp [runMain, hw, hok]
  · intro sel us ue fs1 hw hok; simp [runMain, hw, hok]
  · intro sel us ue inst fs1 hw; simp [runMain, hw]

/-- Witness for C9 amended: a run with all files copied into an empty
directory and a failing installer exits 1 and records the manual install
command. -/
theorem exit_codes_witness :
    runMain ⟨some ⟨true, true, true⟩, some false, some false, some true⟩
        ⟨tplAll, parseNone, stringifyConst, false, false⟩ emptyFs
      = ⟨updateManifestStep parseNone stringifyConst false false
            (setFile (setFile (setFile emptyFs "eslint.config.js"
                "template-content")
              "prettier.config.js" "template-content")
              ".prettierignore" "template-content"),
          1, some (getInstallCommand (detectPackageManager emptyFs false)),
          false⟩ :=
  (exit_codes ⟨tplAll, parseNone, stringifyConst, false, false⟩
    emptyFs).2.2.2.2.2.2.1 ⟨true, true, true⟩ false false _ rfl rfl

end CreateSternConfig
